import Mathlib

/-!
Verification of the build-task export plugins (Makefile and Code::Blocks
emitters) of the `beehive` waftools repository.

Python strings are modelled as `List Char` (`PyStr`), and the relevant
string primitives (`startswith`, `endswith`, `lstrip`, `split`, `join`,
`replace`, slicing) are given executable definitions that mirror Python
semantics.  The per-file models follow:

  * `src/waftools/makefile.py`            (standalone `waf makefile` command)
  * `src/waftools/wafexport/makefile.py`  (combined `waf export` command)
  * `src/waftools/codeblocks.py`          (Code::Blocks project/workspace emitter)
  * `src/waftools/exporter.py`            (export-format selection)
-/

/-- Python strings are sequences of characters. -/
abbrev PyStr := List Char

/-- Shorthand turning a Lean string literal into the `PyStr` model. -/
def pstr (s : String) : PyStr := s.toList

/-- Python `s.startswith(p)`. -/
def sStartsWith : PyStr → PyStr → Bool
  | _, [] => true
  | [], _ :: _ => false
  | x :: xs, p :: ps => x = p && sStartsWith xs ps

/-- Python `s.endswith(p)`. -/
def sEndsWith (s p : PyStr) : Bool := sStartsWith s.reverse p.reverse

/-- Python `s.lstrip(chars)`: strips the maximal leading run of characters
drawn from `chars` (a character *set*, not a prefix). -/
def sLstrip (chars : PyStr) (s : PyStr) : PyStr := s.dropWhile (fun c => c ∈ chars)

/-- Python `s.split(sep)` for a single-character separator. -/
def sSplit (sep : Char) : PyStr → List PyStr
  | [] => [[]]
  | x :: xs =>
    match sSplit sep xs with
    | [] => if x = sep then [[], []] else [[x]]
    | h :: t => if x = sep then [] :: h :: t else (x :: h) :: t

/-- Python `sep.join(parts)`. -/
def sJoin (sep : PyStr) (parts : List PyStr) : PyStr := List.intercalate sep parts

/-- Bounded-fuel worker for `sReplace` (the fuel is the string length, which
suffices because each step consumes at least one character). -/
def sReplaceAux : Nat → PyStr → PyStr → PyStr → PyStr
  | 0, _, _, l => l
  | _ + 1, _, _, [] => []
  | f + 1, old, new, x :: xs =>
    if old ≠ [] ∧ sStartsWith (x :: xs) old then
      new ++ sReplaceAux f old new ((x :: xs).drop old.length)
    else
      x :: sReplaceAux f old new xs

/-- Python `s.replace(old, new)` for nonempty `old` (every use in the source
has a nonempty pattern): non-overlapping, left to right. -/
def sReplace (old new s : PyStr) : PyStr := sReplaceAux s.length old new s

/-- `True` iff `pat` occurs as a contiguous substring of `s`. -/
def sContains : PyStr → PyStr → Bool
  | [], pat => pat.isEmpty
  | x :: xs, pat => sStartsWith (x :: xs) pat || sContains xs pat

/-- Python `os.path.basename`: the part after the last `/`. -/
def pyBasename (s : PyStr) : PyStr := (sSplit '/' s).getLastD []

/-- Python `os.path.dirname`: everything before the last `/` (modelled for
paths with at least one directory component, as produced by the exporters). -/
def pyDirname (s : PyStr) : PyStr := sJoin (pstr "/") (sSplit '/' s).dropLast

/-- Python `list.remove(x)`: removes the first occurrence of `x`, raising
`ValueError` when `x` is absent. -/
def pyRemove (l : List PyStr) (x : PyStr) : Except PyStr (List PyStr) :=
  if x ∈ l then .ok (l.erase x) else .error (pstr "ValueError: list.remove(x): x not in list")

/-- Python `list(set(l))`: deduplication.  The iteration order of a Python
set is unspecified; the model fixes one deterministic order, which is all the
claims depend on. -/
def pySet (l : List PyStr) : List PyStr := l.dedup

deriving instance DecidableEq for Except

/-- Python `dict[key]` over an association list, raising `KeyError` when the
key is absent. -/
def pyDictGet {α : Type} (m : List (PyStr × α)) (k : PyStr) : Except PyStr α :=
  match m.find? (fun kv => kv.1 = k) with
  | some kv => .ok kv.2
  | none => .error (pstr "KeyError")

-- Basic lemmas about the string primitives. --------------------------------

theorem sStartsWith_append (p r : PyStr) : sStartsWith (p ++ r) p = true := by
  induction p with
  | nil => cases r <;> rfl
  | cons x xs ih => simp [sStartsWith, ih]

theorem drop_length_append (p r : PyStr) : (p ++ r).drop p.length = r := by
  simp

theorem sContains_append_left (a b pat : PyStr) (h : sContains b pat = true) :
    sContains (a ++ b) pat = true := by
  induction a with
  | nil => simpa using h
  | cons x xs ih =>
    simp only [List.cons_append, sContains, Bool.or_eq_true]
    exact Or.inr ih

theorem sContains_nil (l : PyStr) : sContains l [] = true := by
  cases l with
  | nil => rfl
  | cons x xs => simp [sContains, sStartsWith]

theorem sContains_self_append (x a b : PyStr) : sContains (a ++ x ++ b) x = true := by
  induction a with
  | nil =>
    cases x with
    | nil => simpa using sContains_nil b
    | cons c cs =>
      simp only [List.nil_append, List.cons_append, sContains, Bool.or_eq_true]
      exact Or.inl (by simpa using sStartsWith_append (c :: cs) b)
  | cons y ys ih =>
    simp only [List.cons_append, sContains, Bool.or_eq_true]
    exact Or.inr ih

-- ---------------------------------------------------------------------------
-- Argument rewriting (identical in src/waftools/makefile.py
-- `makefile_compile`/`makefile_link` and src/waftools/wafexport/makefile.py
-- `_compile_task`/`_link_task`).
-- ---------------------------------------------------------------------------

/-- The include-flag pattern `inc = "-I%s" % bld.path.abspath()`. -/
def incFlag (root : PyStr) : PyStr := pstr "-I" ++ root

/-- First `if/elif` block of the compile-argument loop:
include-flag rewriting, otherwise parent-marker stripping. -/
def compileStage1 (root : PyStr) (c : PyStr) : PyStr :=
  if sStartsWith c (incFlag root) then pstr "-I" ++ c.drop ((incFlag root).length + 1)
  else if sStartsWith c (pstr "../") then sLstrip (pstr "../") c
  else c

/-- The parent-marker branch on its own (`c.lstrip('../')` when
`c.startswith('../')`). -/
def parentStep (c : PyStr) : PyStr :=
  if sStartsWith c (pstr "../") then sLstrip (pstr "../") c else c

/-- Second `if` of the compile-argument loop: object files are prefixed with
`top` (the path from the project root to the build root). -/
def objStep (top : PyStr) (c : PyStr) : PyStr :=
  if sEndsWith c (pstr ".o") then top ++ pstr "/" ++ c else c

/-- One compile-command argument rewritten (`makefile_compile` /
`_compile_task`): `root` is `bld.path.abspath()`, `top` is
`bld.bldnode.path_from(bld.path)`. -/
def rewriteCompileArg (root top c : PyStr) : PyStr :=
  objStep top (compileStage1 root c)

/-- First `if/elif` block of the link-argument loop. -/
def linkStage1 (root : PyStr) (c : PyStr) : PyStr :=
  if sStartsWith c (pstr "../") then sLstrip (pstr "../") c
  else if sStartsWith c root then c.drop (root.length + 1)
  else c

/-- Second `if/elif` block of the link-argument loop: `-L` paths, the
`-Wl,--out-implib,` flag, and remaining `.a`/`.o` paths. -/
def linkStage2 (top : PyStr) (c : PyStr) : PyStr :=
  if sStartsWith c (pstr "-L") then pstr "-L" ++ top ++ pstr "/" ++ c.drop 2
  else if sStartsWith c (pstr "-Wl,--out-implib,") then
    pstr "-Wl,--out-implib," ++ top ++ pstr "/" ++ ((sSplit ',' c).getD 2 [])
  else if sEndsWith c (pstr ".a") || sEndsWith c (pstr ".o") then top ++ pstr "/" ++ c
  else c

/-- One link-command argument rewritten (`makefile_link` / `_link_task`). -/
def rewriteLinkArg (root top c : PyStr) : PyStr :=
  linkStage2 top (linkStage1 root c)

theorem sSplit_ne_nil (sep : Char) (l : PyStr) : sSplit sep l ≠ [] := by
  cases l with
  | nil => simp [sSplit]
  | cons x xs =>
    simp only [sSplit]
    split <;> split <;> simp

theorem sSplit_no_sep (sep : Char) (l : PyStr) (h : sep ∉ l) : sSplit sep l = [l] := by
  induction l with
  | nil => rfl
  | cons x xs ih =>
    have hx : x ≠ sep := fun e => h (e ▸ List.mem_cons_self x xs)
    have ht : sep ∉ xs := fun e => h (List.mem_cons_of_mem x e)
    simp [sSplit, ih ht, hx]

theorem sSplit_append_sep (sep : Char) (front xs : PyStr) (h : sep ∉ front) :
    sSplit sep (front ++ sep :: xs) = front :: sSplit sep xs := by
  induction front with
  | nil =>
    rcases e : sSplit sep xs with _ | ⟨hd, t⟩
    · exact absurd e (sSplit_ne_nil sep xs)
    · simp [sSplit, e]
  | cons y ys ih =>
    have hy : y ≠ sep := fun e => h (e ▸ List.mem_cons_self y ys)
    have ht : sep ∉ ys := fun e => h (List.mem_cons_of_mem y e)
    have e2 : (y :: ys) ++ sep :: xs = y :: (ys ++ sep :: xs) := rfl
    rw [e2]
    simp only [sSplit, ih ht]
    simp [hy]

-- ---------------------------------------------------------------------------
-- Claims C5, C6, C7: the path/flag rewriting rules.
-- ---------------------------------------------------------------------------

theorem include_rewrite_drop (root top rest : PyStr)
    (h : sEndsWith (pstr "-I" ++ rest) (pstr ".o") = false) :
    rewriteCompileArg root top (incFlag root ++ pstr "/" ++ rest) = pstr "-I" ++ rest := by
  have hpfx : sStartsWith (incFlag root ++ pstr "/" ++ rest) (incFlag root) = true := by
    rw [List.append_assoc]
    exact sStartsWith_append (incFlag root) (pstr "/" ++ rest)
  have hdrop : (incFlag root ++ pstr "/" ++ rest).drop ((incFlag root).length + 1) = rest := by
    have e2 : (incFlag root ++ pstr "/").length = (incFlag root).length + 1 := by
      rw [List.length_append]
      rfl
    rw [← e2, drop_length_append]
  rw [rewriteCompileArg, compileStage1, if_pos hpfx, hdrop, objStep, if_neg (by simp [h])]

/-- C5: an include flag `-I<path>` whose path lies under the build root is
rewritten by dropping the build-root prefix and its separator, keeping only
the relative path; arguments not starting with `-I<root>` are handled exactly
as if the include rule did not exist; in particular `-I/build/root/inc` with
build root `/build/root` rewrites to `-Iinc`. -/
theorem compile_include_flag_rewrite (root top rest c : PyStr) :
    (sEndsWith (pstr "-I" ++ rest) (pstr ".o") = false →
      rewriteCompileArg root top (incFlag root ++ pstr "/" ++ rest) = pstr "-I" ++ rest)
    ∧ (sStartsWith c (incFlag root) = false → compileStage1 root c = parentStep c)
    ∧ rewriteCompileArg (pstr "/build/root") top (pstr "-I/build/root/inc") = pstr "-Iinc" := by
  refine ⟨include_rewrite_drop root top rest, ?_, ?_⟩
  · intro h
    simp [compileStage1, parentStep, h]
  · show rewriteCompileArg (pstr "/build/root") top
      (incFlag (pstr "/build/root") ++ pstr "/" ++ pstr "inc") = pstr "-I" ++ pstr "inc"
    exact include_rewrite_drop (pstr "/build/root") top (pstr "inc") (by decide)

theorem compile_include_flag_rewrite_witness :
    sEndsWith (pstr "-I" ++ pstr "inc") (pstr ".o") = false
    ∧ rewriteCompileArg (pstr "/build/root") (pstr "build")
        (incFlag (pstr "/build/root") ++ pstr "/" ++ pstr "inc") = pstr "-I" ++ pstr "inc"
    ∧ sStartsWith (pstr "foo.c") (incFlag (pstr "/build/root")) = false
    ∧ compileStage1 (pstr "/build/root") (pstr "foo.c") = parentStep (pstr "foo.c") :=
  ⟨by decide,
   (compile_include_flag_rewrite (pstr "/build/root") (pstr "build") (pstr "inc") (pstr "foo.c")).1 (by decide),
   by decide,
   (compile_include_flag_rewrite (pstr "/build/root") (pstr "build") (pstr "inc") (pstr "foo.c")).2.1 (by decide)⟩

/-- C6 counterexample: the rewriter uses Python `str.lstrip('../')`, a
character-set strip, so `../.hidden/a.c` loses the dot of `.hidden` and
becomes `hidden/a.c`, not `.hidden/a.c` as the claim states. -/
theorem compile_parent_marker_overstrip :
    rewriteCompileArg (pstr "/br") (pstr "build") (pstr "../.hidden/a.c") = pstr "hidden/a.c"
    ∧ rewriteCompileArg (pstr "/br") (pstr "build") (pstr "../.hidden/a.c") ≠ pstr ".hidden/a.c" := by
  decide

/-- C6 amended: an argument starting with `../` has the maximal leading run
of `.` and `/` characters stripped (Python `lstrip('../')`); exactly the
marker is stripped when the remainder begins with neither `.` nor `/`, and
repeated markers collapse as well. -/
theorem compile_parent_marker_lstrip (root top rest : PyStr) (x : Char)
    (hx : ¬(x = '.' ∨ x = '/'))
    (hinc : sStartsWith (pstr "../" ++ x :: rest) (incFlag root) = false)
    (ho : sEndsWith (x :: rest) (pstr ".o") = false) :
    rewriteCompileArg root top (pstr "../" ++ x :: rest) = x :: rest
    ∧ sLstrip (pstr "../") (pstr "../../" ++ x :: rest) = x :: rest := by
  have hnm : x ∉ pstr "../" := by
    intro hm
    have e : pstr "../" = ['.', '.', '/'] := rfl
    rw [e] at hm
    simp only [List.mem_cons, List.not_mem_nil, or_false] at hm
    rcases hm with h | h | h
    · exact hx (Or.inl h)
    · exact hx (Or.inl h)
    · exact hx (Or.inr h)
  have d1 : decide (('.' : Char) ∈ pstr "../") = true := by decide
  have d2 : decide (('/' : Char) ∈ pstr "../") = true := by decide
  have d3 : decide (x ∈ pstr "../") = false := decide_eq_false hnm
  constructor
  · have h1 : sStartsWith (pstr "../" ++ x :: rest) (pstr "../") = true :=
      sStartsWith_append _ _
    have h2 : sLstrip (pstr "../") (pstr "../" ++ x :: rest) = x :: rest := by
      show List.dropWhile _ ('.' :: '.' :: '/' :: x :: rest) = x :: rest
      simp only [List.dropWhile, d1, d2, d3]
    rw [rewriteCompileArg, compileStage1, if_neg (by simp [hinc]), if_pos h1, h2,
        objStep, if_neg (by simp [ho])]
  · show List.dropWhile _ ('.' :: '.' :: '/' :: '.' :: '.' :: '/' :: x :: rest) = x :: rest
    simp only [List.dropWhile, d1, d2, d3]

theorem compile_parent_marker_lstrip_witness :
    ¬(('h' : Char) = '.' ∨ ('h' : Char) = '/')
    ∧ sStartsWith (pstr "../" ++ 'h' :: pstr "ello.c") (incFlag (pstr "/br")) = false
    ∧ sEndsWith ('h' :: pstr "ello.c") (pstr ".o") = false
    ∧ rewriteCompileArg (pstr "/br") (pstr "build") (pstr "../" ++ 'h' :: pstr "ello.c") = 'h' :: pstr "ello.c"
    ∧ sLstrip (pstr "../") (pstr "../../" ++ 'h' :: pstr "ello.c") = 'h' :: pstr "ello.c" :=
  ⟨by decide, by decide, by decide,
   (compile_parent_marker_lstrip (pstr "/br") (pstr "build") (pstr "ello.c") 'h'
     (by decide) (by decide) (by decide)).1,
   (compile_parent_marker_lstrip (pstr "/br") (pstr "build") (pstr "ello.c") 'h'
     (by decide) (by decide) (by decide)).2⟩

/-- C7 counterexample: the rewriter takes `c.split(',')[2]`, so an embedded
output path containing a comma is truncated at it: `-Wl,--out-implib,a,b`
rewrites to `-Wl,--out-implib,build/a`, not `-Wl,--out-implib,build/a,b`. -/
theorem link_implib_comma_truncation :
    rewriteLinkArg (pstr "/bld") (pstr "build") (pstr "-Wl,--out-implib,a,b")
      = pstr "-Wl,--out-implib,build/a"
    ∧ rewriteLinkArg (pstr "/bld") (pstr "build") (pstr "-Wl,--out-implib,a,b")
      ≠ pstr "-Wl,--out-implib,build/a,b" := by
  decide

/-- C7 amended: a link argument `-Wl,--out-implib,<path>` whose embedded path
contains no comma (and which does not itself start with the build root) is
rewritten to `-Wl,--out-implib,<top>/<path>`, the flag name and comma
structure preserved verbatim; a path containing a comma is truncated at its
first comma (`split(',')[2]`). -/
theorem link_implib_rewrite_no_comma (root top path : PyStr)
    (hc : ',' ∉ path)
    (hroot : sStartsWith (pstr "-Wl,--out-implib," ++ path) root = false) :
    rewriteLinkArg root top (pstr "-Wl,--out-implib," ++ path)
      = pstr "-Wl,--out-implib," ++ top ++ pstr "/" ++ path := by
  have hdots : sStartsWith (pstr "-Wl,--out-implib," ++ path) (pstr "../") = false := rfl
  have hL : sStartsWith (pstr "-Wl,--out-implib," ++ path) (pstr "-L") = false := rfl
  have himp : sStartsWith (pstr "-Wl,--out-implib," ++ path) (pstr "-Wl,--out-implib,") = true :=
    sStartsWith_append _ _
  have hsplit : sSplit ',' (pstr "-Wl,--out-implib," ++ path)
      = pstr "-Wl" :: pstr "--out-implib" :: [path] := by
    have e : pstr "-Wl,--out-implib," ++ path
        = pstr "-Wl" ++ ',' :: (pstr "--out-implib" ++ ',' :: path) := rfl
    rw [e, sSplit_append_sep ',' (pstr "-Wl") _ (by decide),
        sSplit_append_sep ',' (pstr "--out-implib") _ (by decide),
        sSplit_no_sep ',' path hc]
  simp [rewriteLinkArg, linkStage1, linkStage2, hdots, hroot, hL, himp, hsplit]

theorem link_implib_rewrite_no_comma_witness :
    ',' ∉ pstr "libfoo.dll.a"
    ∧ sStartsWith (pstr "-Wl,--out-implib," ++ pstr "libfoo.dll.a") (pstr "/bld") = false
    ∧ rewriteLinkArg (pstr "/bld") (pstr "build") (pstr "-Wl,--out-implib," ++ pstr "libfoo.dll.a")
      = pstr "-Wl,--out-implib," ++ pstr "build" ++ pstr "/" ++ pstr "libfoo.dll.a" :=
  ⟨by decide, by decide,
   link_implib_rewrite_no_comma (pstr "/bld") (pstr "build") (pstr "libfoo.dll.a")
     (by decide) (by decide)⟩

-- ---------------------------------------------------------------------------
-- Code::Blocks exporter model (src/waftools/codeblocks.py; the nested
-- functions of src/waftools/wafexport/codeblocks.py `export` implement the
-- same logic).  The XML documents are modelled by their schema: a project
-- holds a title, build targets, source-file units and an extensions block; a
-- workspace holds per-project dependency entries.
-- ---------------------------------------------------------------------------

/-- One component record built by `codeblocks.process` from a finished task. -/
structure CbComponent where
  name : PyStr
  ctype : PyStr
  inputs : List PyStr
  outputs : List PyStr
  command : List PyStr
  compiler : PyStr
deriving DecidableEq

/-- The build-context data `_codeblocks_project` reads. -/
structure CbEnv where
  components : List (PyStr × CbComponent)
  destOs : PyStr
  destCpu : PyStr
  bldPathAbs : PyStr
  bldOutAbs : PyStr
deriving DecidableEq

/-- A `<Target>` element of a project file. -/
structure CbTarget where
  title : PyStr
  output : PyStr
  objectOutput : PyStr
  ttype : PyStr
  compiler : PyStr
  cflags : List PyStr
  includes : List PyStr
  linker : Option (List PyStr × List PyStr × List PyStr)
deriving DecidableEq

/-- A project document: title option, `<Target>` children of `<Build>`,
`<Unit>` filenames, and whether an `<Extensions>` block is present. -/
structure CbProject where
  title : PyStr
  targets : List CbTarget
  units : List PyStr
  hasExtensions : Bool
deriving DecidableEq

/-- `CODEBLOCKS_CBP_PROJECT`: the fresh-project template. -/
def cbTemplateProject : CbProject :=
  { title := pstr "cprogram", targets := [], units := [], hasExtensions := false }

/-- The `ctypes` dictionary mapping task class names to target types. -/
def ctypesMap : List (PyStr × PyStr) :=
  [(pstr "cprogram", pstr "1"), (pstr "cshlib", pstr "3"), (pstr "cstlib", pstr "2"),
   (pstr "cxxprogram", pstr "1"), (pstr "cxxshlib", pstr "3"), (pstr "cxxstlib", pstr "2")]

/-- Compile options and include paths accumulated over the commands of the
components consumed by a link component (`_codeblocks_project` lines 75-86),
then deduplicated (`list(set(...))`). -/
def collectCompileFlags (m : List (PyStr × CbComponent)) (inputs : List PyStr) :
    Except PyStr (List PyStr × List PyStr) :=
  match inputs.foldlM (fun acc key =>
      (match pyDictGet m key with
      | Except.error e => Except.error e
      | Except.ok obj => Except.ok (obj.command.foldl (fun (acc : List PyStr × List PyStr) cmd =>
          if sStartsWith cmd (pstr "-I") then (acc.1, acc.2 ++ [sLstrip (pstr "-I") cmd])
          else if sStartsWith cmd (pstr "-") ∧ cmd ∉ [pstr "-c", pstr "-o"] then
            (acc.1 ++ [cmd], acc.2)
          else acc) acc) : Except PyStr (List PyStr × List PyStr)))
      (([], []) : List PyStr × List PyStr) with
  | .error e => .error e
  | .ok p => .ok (pySet p.1, pySet p.2)

/-- Link options, libraries and library search paths of a link component
(`_codeblocks_project` lines 88-100): `(lflags, libs, libpaths)`. -/
def collectLinkFlags (env : CbEnv) (component : CbComponent) :
    List PyStr × List PyStr × List PyStr :=
  let lflags := pySet (component.command.filter (fun c => sStartsWith c (pstr "-Wl")))
  let p := component.command.foldl (fun (acc : List PyStr × List PyStr) cmd =>
      if sStartsWith cmd (pstr "-l") then (acc.1 ++ [sLstrip (pstr "-l") cmd], acc.2)
      else if sStartsWith cmd (pstr "-L") then
        (acc.1, acc.2 ++ [env.bldOutAbs ++ pstr "/" ++ sLstrip (pstr "-L") cmd])
      else acc) ([], [])
  (lflags, pySet p.1, pySet p.2)

/-- `depends = list(libs)`. -/
def cbDepends (env : CbEnv) (component : CbComponent) : List PyStr :=
  (collectLinkFlags env component).2.1

/-- The transformation applied to a stored `<Unit>` filename when it is read
back (`_codeblocks_project` lines 168-172): backslashes become slashes, and a
leading `../` is expanded against `bld.path.abspath()`. -/
def unitSrc (env : CbEnv) (s : PyStr) : PyStr :=
  let s1 := s.map (fun ch => if ch = '\\' then '/' else ch)
  if sStartsWith s1 (pstr "../") then env.bldPathAbs ++ s1.drop 2 else s1

/-- The flat source list of a link component: the inputs of every compile
component whose object it consumes (`_codeblocks_project` lines 163-167). -/
def collectSources (m : List (PyStr × CbComponent)) (inputs : List PyStr) :
    Except PyStr (List PyStr) :=
  inputs.foldlM (fun acc key =>
    (match pyDictGet m key with
    | Except.error e => Except.error e
    | Except.ok obj => Except.ok (acc ++ obj.inputs) : Except PyStr (List PyStr))) []

/-- `sources.remove(src)` executed for every existing `<Unit>`
(`_codeblocks_project` lines 168-172): raises `ValueError` on a stale unit. -/
def removeUnits (env : CbEnv) (units srcs : List PyStr) : Except PyStr (List PyStr) :=
  units.foldlM (fun s u => pyRemove s (unitSrc env u)) srcs

/-- The `<os>-<cpu>` target-title base. -/
def titleBase (env : CbEnv) : PyStr := env.destOs ++ pstr "-" ++ env.destCpu

/-- The new `<Target>` element built from `CODEBLOCKS_CBP_TARGET`
(`_codeblocks_project` lines 134-160). -/
def cbNewTarget (env : CbEnv) (component : CbComponent)
    (cflags includes : List PyStr) (ctype : PyStr) : CbTarget :=
  let lk := collectLinkFlags env component
  { title := if pstr "-ggdb" ∈ cflags then titleBase env ++ pstr "-debug" else titleBase env,
    output := component.outputs.headD [],
    objectOutput := pyDirname (component.outputs.headD []),
    ttype := ctype,
    compiler := component.compiler,
    cflags := cflags,
    includes := includes,
    linker := if lk.1 ≠ [] ∨ lk.2.1 ≠ [] ∨ lk.2.2 ≠ [] then some lk else none }

/-- `_codeblocks_project`: patch (or create from the template) a project
document for one link component, returning the patched document and its
dependency list.  Failures (`KeyError` on a missing component record,
`ValueError` on a stale unit) abort before the document is saved. -/
def codeblocks_project (env : CbEnv) (component : CbComponent) (proj : CbProject) :
    Except PyStr (CbProject × List PyStr) :=
  match collectCompileFlags env.components component.inputs with
  | .error e => .error e
  | .ok fl =>
    match pyDictGet ctypesMap component.ctype with
    | .error e => .error e
    | .ok ctype =>
      match collectSources env.components component.inputs with
      | .error e => .error e
      | .ok srcs =>
        match removeUnits env proj.units srcs with
        | .error e => .error e
        | .ok rem =>
          .ok ({ title := if proj.title ≠ [] then (sSplit '.' component.name).headD []
                          else proj.title,
                 targets := proj.targets.filter
                     (fun t => !sStartsWith t.title (titleBase env))
                   ++ [cbNewTarget env component fl.1 fl.2 ctype],
                 units := proj.units ++ rem,
                 hasExtensions := true },
               cbDepends env component)

/-- A `<Project>` entry of the workspace document, with its `Depends`
children. -/
structure WsProject where
  filename : PyStr
  depends : List PyStr
deriving DecidableEq

/-- Python `del dict[key]` over the association-list model. -/
def pyDictErase {α : Type} (m : List (PyStr × α)) (k : PyStr) : List (PyStr × α) :=
  m.filter (fun kv => kv.1 ≠ k)

/-- First pass of `_codeblocks_workspace` (lines 206-216): for every project
already in the workspace that is being re-exported, remove each existing
`Depends` filename from the NEW dependency list (`depends.remove(dep)` -
raising `ValueError` when the old dependency is no longer present), append
the remaining new dependencies after the old entries, and consume the entry
from `projects`. -/
def wsPass1 : List (PyStr × List PyStr) → List WsProject →
    Except PyStr (List WsProject × List (PyStr × List PyStr))
  | projects, [] => .ok ([], projects)
  | projects, p :: rest =>
    match projects.find? (fun kv => kv.1 = p.filename) with
    | none =>
      match wsPass1 projects rest with
      | .error e => .error e
      | .ok (r, pr) => .ok (p :: r, pr)
    | some kv =>
      match p.depends.foldlM pyRemove kv.2 with
      | .error e => .error e
      | .ok rem =>
        match wsPass1 (pyDictErase projects p.filename) rest with
        | .error e => .error e
        | .ok (r, pr) => .ok ({ p with depends := p.depends ++ rem } :: r, pr)

/-- `_codeblocks_workspace`: update an existing workspace document (`ws`)
with the newly exported projects and their dependency lists (`projects`);
remaining new projects are appended (lines 218-223). -/
def codeblocks_workspace (projects : List (PyStr × List PyStr)) (ws : List WsProject) :
    Except PyStr (List WsProject) :=
  match wsPass1 projects ws with
  | .error e => .error e
  | .ok (r, pr) => .ok (r ++ pr.map (fun kv => { filename := kv.1, depends := kv.2 }))

theorem sStartsWith_self (p : PyStr) : sStartsWith p p = true := by
  have h := sStartsWith_append p []
  simpa using h

/-- C1 (evaluation at the failing input): a workspace already listing project
`a.cbp` with a `Depends` entry `libx`, re-exported with `a.cbp` now depending
only on `liby`, crashes with an uncaught `ValueError` (from
`depends.remove('libx')` on the new list `['liby']`) instead of replacing the
dependency list with exactly `liby`. -/
theorem codeblocks_workspace_removed_dep_crash :
    codeblocks_workspace [(pstr "a.cbp", [pstr "liby"])]
      [{ filename := pstr "a.cbp", depends := [pstr "libx"] }]
      = .error (pstr "ValueError: list.remove(x): x not in list") := by
  decide

theorem foldlM_pyRemove_error (f : PyStr → PyStr) (us : List PyStr) (srcs : List PyStr)
    (u : PyStr) (hu : u ∈ us) (hns : f u ∉ srcs) :
    us.foldlM (fun s x => pyRemove s (f x)) srcs
      = .error (pstr "ValueError: list.remove(x): x not in list") := by
  induction us generalizing srcs with
  | nil => cases hu
  | cons v vs ih =>
    show (pyRemove srcs (f v) >>= fun s => vs.foldlM (fun s x => pyRemove s (f x)) s)
      = .error (pstr "ValueError: list.remove(x): x not in list")
    rcases List.mem_cons.mp hu with he | ht
    · subst he
      rw [pyRemove, if_neg hns]
      rfl
    · by_cases hv : f v ∈ srcs
      · rw [pyRemove, if_pos hv]
        show vs.foldlM (fun s x => pyRemove s (f x)) (srcs.erase (f v)) = _
        exact ih (srcs.erase (f v)) ht (fun hm => hns (List.mem_of_mem_erase hm))
      · rw [pyRemove, if_neg hv]
        rfl

theorem removeUnits_error (env : CbEnv) (us srcs : List PyStr) (u : PyStr)
    (hu : u ∈ us) (hns : unitSrc env u ∉ srcs) :
    removeUnits env us srcs = .error (pstr "ValueError: list.remove(x): x not in list") :=
  foldlM_pyRemove_error (unitSrc env) us srcs u hu hns

theorem removeUnits_self (env : CbEnv) (srcs : List PyStr)
    (hfix : ∀ x ∈ srcs, unitSrc env x = x) :
    removeUnits env srcs srcs = .ok [] := by
  induction srcs with
  | nil => rfl
  | cons v vs ih =>
    show (pyRemove (v :: vs) (unitSrc env v) >>= fun s =>
        vs.foldlM (fun s u => pyRemove s (unitSrc env u)) s) = .ok []
    rw [hfix v (List.mem_cons_self v vs), pyRemove, if_pos (List.mem_cons_self v vs),
        List.erase_cons_head]
    show vs.foldlM (fun s u => pyRemove s (unitSrc env u)) vs = .ok []
    exact ih (fun x hx => hfix x (List.mem_cons_of_mem v hx))

/-- C10: when the project emitter runs against an existing project document
holding a `<Unit>` whose (rewritten) filename is not among the current
component's source files, `sources.remove(src)` raises an uncaught
`ValueError`: the whole export of that project errors out before
`_codeblocks_save`, so the project file is not rewritten. -/
theorem codeblocks_project_stale_unit_error (env : CbEnv) (component : CbComponent)
    (proj : CbProject) (fl : List PyStr × List PyStr) (ctype : PyStr) (srcs : List PyStr)
    (u : PyStr)
    (hfl : collectCompileFlags env.components component.inputs = .ok fl)
    (hct : pyDictGet ctypesMap component.ctype = .ok ctype)
    (hs : collectSources env.components component.inputs = .ok srcs)
    (hu : u ∈ proj.units)
    (hns : unitSrc env u ∉ srcs) :
    codeblocks_project env component proj
      = .error (pstr "ValueError: list.remove(x): x not in list") := by
  simp only [codeblocks_project, hfl, hct, hs,
    removeUnits_error env proj.units srcs u hu hns]

/-- Concrete compile component used by the Code::Blocks witnesses. -/
def cbObj0 : CbComponent :=
  { name := pstr "hello.o", ctype := pstr "c",
    inputs := [pstr "/t/src/hello.c"], outputs := [pstr "/t/build/hello.o"],
    command := [pstr "gcc", pstr "-c", pstr "-O2", pstr "-I/t/inc", pstr "-o", pstr "hello.o"],
    compiler := pstr "gcc" }

/-- Concrete link component used by the Code::Blocks witnesses. -/
def cbLink0 : CbComponent :=
  { name := pstr "hello", ctype := pstr "cprogram",
    inputs := [pstr "/t/build/hello.o"], outputs := [pstr "/t/build/hello"],
    command := [pstr "gcc", pstr "-o", pstr "hello", pstr "hello.o"],
    compiler := pstr "gcc" }

/-- Concrete build context used by the Code::Blocks witnesses. -/
def cbEnv0 : CbEnv :=
  { components := [(pstr "/t/build/hello.o", cbObj0)],
    destOs := pstr "linux", destCpu := pstr "x86",
    bldPathAbs := pstr "/t", bldOutAbs := pstr "/t/build" }

/-- An existing project document holding a stale unit `/t/src/old.c`. -/
def cbStaleProj0 : CbProject :=
  { title := pstr "hello", targets := [], units := [pstr "/t/src/old.c"],
    hasExtensions := true }

theorem codeblocks_project_stale_unit_error_witness :
    codeblocks_project cbEnv0 cbLink0 cbStaleProj0
      = .error (pstr "ValueError: list.remove(x): x not in list") :=
  codeblocks_project_stale_unit_error cbEnv0 cbLink0 cbStaleProj0
    ([pstr "-O2"], [pstr "/t/inc"]) (pstr "1") [pstr "/t/src/hello.c"] (pstr "/t/src/old.c")
    (by decide) (by decide) (by decide) (by decide) (by decide)

theorem cbNewTarget_title_base (env : CbEnv) (component : CbComponent)
    (cflags includes : List PyStr) (ctype : PyStr) :
    sStartsWith (cbNewTarget env component cflags includes ctype).title (titleBase env)
      = true := by
  simp only [cbNewTarget]
  by_cases hg : pstr "-ggdb" ∈ cflags
  · simp [hg, sStartsWith_append]
  · simp [hg, sStartsWith_self]

/-- C4: running the project emitter twice for the same OS/architecture pair
on the same component (starting from the fresh template, with distinct source
files whose stored unit filenames read back unchanged) is idempotent: the
second run reproduces the first run's document exactly, that document has
exactly one target whose title starts with the `<os>-<cpu>` prefix, and no
source-file unit entry is duplicated. -/
theorem codeblocks_project_idempotent (env : CbEnv) (component : CbComponent)
    (srcs : List PyStr) (p1 : CbProject) (dep : List PyStr)
    (hs : collectSources env.components component.inputs = .ok srcs)
    (hnd : srcs.Nodup)
    (hfix : ∀ x ∈ srcs, unitSrc env x = x)
    (h1 : codeblocks_project env component cbTemplateProject = .ok (p1, dep)) :
    codeblocks_project env component p1 = .ok (p1, dep)
    ∧ p1.targets.countP (fun t => sStartsWith t.title (titleBase env)) = 1
    ∧ p1.units.Nodup := by
  rcases hq : collectCompileFlags env.components component.inputs with e | fl
  · simp only [codeblocks_project, hq] at h1
    exact Except.noConfusion h1
  rcases hc : pyDictGet ctypesMap component.ctype with e | ctype
  · simp only [codeblocks_project, hq, hc] at h1
    exact Except.noConfusion h1
  have hcp : ¬((pstr "cprogram" : PyStr) = []) := by decide
  have hru : removeUnits env ([] : List PyStr) srcs = .ok srcs := rfl
  simp only [codeblocks_project, cbTemplateProject, hq, hc, hs, hru, List.filter_nil,
    List.nil_append, ne_eq, hcp, not_false_eq_true, if_true, Except.ok.injEq,
    Prod.mk.injEq] at h1
  obtain ⟨hp, hd⟩ := h1
  subst hp
  subst hd
  refine ⟨?_, ?_, ?_⟩
  · simp only [codeblocks_project, hq, hc, hs, removeUnits_self env srcs hfix,
      List.append_nil]
    simp [List.filter_cons, cbNewTarget_title_base, ite_self]
  · simp [List.countP_cons, cbNewTarget_title_base]
  · exact hnd

/-- The project document produced by the first export of `cbLink0`. -/
def cbProj1 : CbProject :=
  { title := pstr "hello",
    targets := [cbNewTarget cbEnv0 cbLink0 [pstr "-O2"] [pstr "/t/inc"] (pstr "1")],
    units := [pstr "/t/src/hello.c"],
    hasExtensions := true }

theorem codeblocks_project_idempotent_witness :
    collectSources cbEnv0.components cbLink0.inputs = .ok [pstr "/t/src/hello.c"]
    ∧ ([pstr "/t/src/hello.c"] : List PyStr).Nodup
    ∧ unitSrc cbEnv0 (pstr "/t/src/hello.c") = pstr "/t/src/hello.c"
    ∧ codeblocks_project cbEnv0 cbLink0 cbTemplateProject = .ok (cbProj1, [])
    ∧ (codeblocks_project cbEnv0 cbLink0 cbProj1 = .ok (cbProj1, [])
       ∧ cbProj1.targets.countP (fun t => sStartsWith t.title (titleBase cbEnv0)) = 1
       ∧ cbProj1.units.Nodup) :=
  ⟨by decide, by decide, by decide, by decide,
   codeblocks_project_idempotent cbEnv0 cbLink0 [pstr "/t/src/hello.c"] cbProj1 []
     (by decide) (by decide) (by decide) (by decide)⟩

-- ---------------------------------------------------------------------------
-- Export-format selection (src/waftools/exporter.py, `ExportContext.execute`
-- lines 121-128).
-- ---------------------------------------------------------------------------

/-- `ExportContext.exporters`. -/
def exporters : List PyStr := [pstr "all", pstr "makefile", pstr "codeblocks"]

/-- The format check at the start of `ExportContext.execute`: fatal exactly
when the selected set and the supported set are disjoint
(`if not (set(self.export_to) & set(exporters))`). -/
def exportValidate (opt : PyStr) : Except PyStr (List PyStr) :=
  let sel := sSplit ',' opt
  if sel.any (fun f => f ∈ exporters) then .ok sel
  else .error (pstr "Invalid export format(s); selected(" ++ sJoin (pstr ",") sel
    ++ pstr "), supported(" ++ sJoin (pstr ",") exporters ++ pstr ")")

/-- `ExportContext.execute` abstracted over the remainder of the command: the
build runs and produces artifacts only after successful validation. -/
def exportExecute (opt : PyStr) (build : List PyStr → List PyStr) :
    Except PyStr (List PyStr) :=
  match exportValidate opt with
  | .error e => .error e
  | .ok sel => .ok (build sel)

/-- C2 counterexample: the selection `makefile,bogus` contains the format
`bogus`, which is outside the supported set, yet validation succeeds (no
fatal configuration error), because the code only checks that the
intersection with the supported set is nonempty. -/
theorem export_to_mixed_formats_accepted :
    pstr "bogus" ∈ sSplit ',' (pstr "makefile,bogus")
    ∧ pstr "bogus" ∉ exporters
    ∧ exportValidate (pstr "makefile,bogus") = .ok [pstr "makefile", pstr "bogus"] := by
  decide

/-- C2 amended: the export command fails with a fatal configuration error
(listing the supported set, before the build runs and with no artifact
produced) exactly when NO entry of the comma-separated selection is a
supported format; when at least one entry is supported the command proceeds,
silently ignoring the unsupported entries. -/
theorem export_to_validation_iff (opt : PyStr) (build : List PyStr → List PyStr) :
    ((∀ f ∈ sSplit ',' opt, f ∉ exporters) →
      ∃ m, exportValidate opt = .error m
        ∧ sContains m (pstr "supported(all,makefile,codeblocks)") = true
        ∧ exportExecute opt build = .error m)
    ∧ ((∃ f ∈ sSplit ',' opt, f ∈ exporters) →
      exportExecute opt build = .ok (build (sSplit ',' opt))) := by
  constructor
  · intro h
    have hany : (sSplit ',' opt).any (fun f => f ∈ exporters) = false := by
      rw [List.any_eq_false]
      intro x hx
      simp [h x hx]
    refine ⟨pstr "Invalid export format(s); selected(" ++ sJoin (pstr ",") (sSplit ',' opt)
      ++ pstr "), supported(" ++ sJoin (pstr ",") exporters ++ pstr ")", ?_, ?_, ?_⟩
    · simp [exportValidate, hany]
    · have e : pstr "Invalid export format(s); selected(" ++ sJoin (pstr ",") (sSplit ',' opt)
          ++ pstr "), supported(" ++ sJoin (pstr ",") exporters ++ pstr ")"
          = (pstr "Invalid export format(s); selected(" ++ sJoin (pstr ",") (sSplit ',' opt))
            ++ (pstr "), supported(" ++ (sJoin (pstr ",") exporters ++ pstr ")")) := by
        simp [List.append_assoc]
      rw [e]
      exact sContains_append_left _ _ _ (by decide)
    · simp [exportExecute, exportValidate, hany]
  · rintro ⟨f, hf, hfe⟩
    have hany : (sSplit ',' opt).any (fun f => f ∈ exporters) = true := by
      rw [List.any_eq_true]
      exact ⟨f, hf, by simpa using hfe⟩
    simp [exportExecute, exportValidate, hany]

theorem export_to_validation_iff_witness :
    (∀ f ∈ sSplit ',' (pstr "bogus,nope"), f ∉ exporters)
    ∧ (∃ m, exportValidate (pstr "bogus,nope") = .error m
        ∧ sContains m (pstr "supported(all,makefile,codeblocks)") = true
        ∧ exportExecute (pstr "bogus,nope") (fun sel => sel) = .error m)
    ∧ (∃ f ∈ sSplit ',' (pstr "makefile,bogus"), f ∈ exporters)
    ∧ exportExecute (pstr "makefile,bogus") (fun sel => sel)
      = .ok (sSplit ',' (pstr "makefile,bogus")) :=
  ⟨by decide,
   (export_to_validation_iff (pstr "bogus,nope") (fun sel => sel)).1 (by decide),
   by decide,
   (export_to_validation_iff (pstr "makefile,bogus") (fun sel => sel)).2 (by decide)⟩

-- ---------------------------------------------------------------------------
-- Makefile emitters.  `export_makefile` models `_export_makefile` of
-- src/waftools/wafexport/makefile.py (string concatenation, placeholder
-- `$(PREFIX)`, header appended after the replacement); `makefile_export`
-- models `makefile_export` of src/waftools/makefile.py (template with
-- `re.sub`, placeholder `$PREFIX`).  `re.sub` with the literal patterns and
-- replacements used here coincides with plain string replacement for
-- metacharacter-free pattern strings, which is how it is modelled.
-- ---------------------------------------------------------------------------

/-- The build-context fields both Makefile emitters read. -/
structure BldEnv where
  rootAbs : PyStr
  top : PyStr
  appname : PyStr
  version : PyStr
  wafversion : PyStr
  prefixPath : PyStr
  bindir : PyStr
  libdir : PyStr
deriving DecidableEq

/-- The body lines of `_export_makefile` (wafexport, lines 129-161). -/
def exportMakefileLines (env : BldEnv) (targets commands : List PyStr) : List PyStr :=
  let tgt := (targets.filter (fun t => !sEndsWith t (pstr ".dll.a"))).map
      (fun t => if sEndsWith t (pstr ".o") then t else pyBasename t)
  [pstr "all: \\", pstr "\t" ++ sJoin (pstr " \\\n\t") tgt]
  ++ [pstr "", pstr "clean:"]
  ++ targets.map (fun t => pstr "\trm -rf  " ++ t)
  ++ [pstr "", pstr "install:",
      pstr "\tmkdir -p " ++ env.bindir, pstr "\tmkdir -p " ++ env.libdir]
  ++ (targets.filter
        (fun t => (sSplit '.' t).getLastD [] ∉ [pstr "a", pstr "o", pstr "so"])).map
      (fun t => pstr "\tcp " ++ t ++ pstr "  " ++ env.bindir ++ pstr "/" ++ pyBasename t)
  ++ (targets.filter (fun t => sEndsWith t (pstr "so"))).map
      (fun t => pstr "\tcp " ++ t ++ pstr "  " ++ env.libdir ++ pstr "/" ++ pyBasename t)
  ++ [pstr "", pstr "uninstall:"]
  ++ (targets.filter
        (fun t => (sSplit '.' t).getLastD [] ∉ [pstr "a", pstr "o", pstr "so"])).map
      (fun t => pstr "\trm -rf  " ++ env.bindir ++ pstr "/" ++ pyBasename t)
  ++ (targets.filter (fun t => sEndsWith t (pstr "so"))).map
      (fun t => pstr "\trm -rf  " ++ env.libdir ++ pstr "/" ++ pyBasename t)
  ++ commands.flatMap
      (fun c => if sStartsWith c (pstr "\t") then [c] else [pstr "", c])
  ++ [pstr "\t\n"]

/-- The joined body with every occurrence of the install prefix replaced by
the literal `$(PREFIX)` (wafexport lines 176-177). -/
def exportMakefileContent (env : BldEnv) (targets commands : List PyStr) : PyStr :=
  sReplace env.prefixPath (pstr "$(PREFIX)")
    (sJoin (pstr "\n") (exportMakefileLines env targets commands))

/-- The generated header (wafexport lines 166-175); `dt` is the
`datetime.datetime.now()` reading of the run. -/
def exportMakefileHeader (env : BldEnv) (dt : PyStr) : PyStr :=
  pstr "# This makefile has been generated by waf.\n#\n# project : " ++ env.appname
  ++ pstr "\n# version : " ++ env.version
  ++ pstr "\n# waf     : " ++ env.wafversion
  ++ pstr "\n# time    : " ++ dt
  ++ pstr "\n#\nSHELL=/bin/sh\nPREFIX=" ++ env.prefixPath ++ pstr "\n\n"

/-- `_export_makefile` (wafexport): `none` when there are no targets (nothing
is written), otherwise the content written to the Makefile. -/
def export_makefile (env : BldEnv) (targets commands : List PyStr) (dt : PyStr) :
    Option PyStr :=
  if targets = [] then none
  else some (exportMakefileHeader env dt ++ exportMakefileContent env targets commands)

/-- `MAKEFILE_TEMPLATE` of src/waftools/makefile.py (the `\\` of the python
string literal is a single backslash). -/
def MAKEFILE_TEMPLATE : PyStr :=
  pstr "# This makefile has been generated by waf.\n#\n# project : $(APPNAME)\n# version : $(VERSION)\n# waf     : $(WAFVERSION)\n# time    : $(DATETIME)\n#\nSHELL=/bin/sh\nPREFIX=$(PREFIX)\n\nall: \\\n\t$(TGT_ALL)\n\nclean:\n\t$(TGT_CLEAN)\n\ninstall:\n\tmkdir -p $(BINDIR)\n\tmkdir -p $(LIBDIR)\n\t$(TGT_INSTALL)\n\nuninstall:\n\t$(TGT_UNINSTALL)\n\n$(TARGETS)\n\n"

/-- `re.sub('\A/home/.*?/', '~/', p)`: when `p` starts with `/home/` and a
further slash follows, the home directory is abbreviated to `~/`. -/
def homeAbbrev (p : PyStr) : PyStr :=
  if sStartsWith p (pstr "/home/") then
    match (p.drop 6).dropWhile (fun c => c ≠ '/') with
    | [] => p
    | _ :: tail => pstr "~/" ++ tail
  else p

/-- `makefile_export` of src/waftools/makefile.py (lines 245-289): template
substitution, then every occurrence of the raw prefix replaced by the literal
`$PREFIX` (line 282: `re.sub(prefix, '$PREFIX', content)`). -/
def makefile_export (env : BldEnv) (targets commands : List PyStr) (dt : PyStr) : PyStr :=
  let binaries := targets.filter
      (fun t => (sSplit '.' t).getLastD [] ∉ [pstr "a", pstr "o", pstr "so"])
  let libraries := targets.filter (fun t => sEndsWith t (pstr ".so"))
  let tgt := (targets.filter (fun t => !sEndsWith t (pstr ".dll.a"))).map
      (fun t => if sEndsWith t (pstr ".o") then t else pyBasename t)
  let tgtAll := sJoin (pstr " \\\n\t") tgt
  let tgtClean := sJoin (pstr "\n\t") (targets.map (fun t => pstr "rm -rf " ++ t))
  let bini := binaries.map
      (fun b => pstr "cp " ++ b ++ pstr " " ++ env.bindir ++ pstr "/" ++ pyBasename b)
  let libi := libraries.map
      (fun l => pstr "cp " ++ l ++ pstr " " ++ env.libdir ++ pstr "/" ++ pyBasename l)
  let tgtInstall := sJoin (pstr "\n\t") (bini ++ libi)
  let binu := binaries.map
      (fun b => pstr "rm -rf " ++ env.bindir ++ pstr "/" ++ pyBasename b)
  let libu := libraries.map
      (fun l => pstr "rm -rf " ++ env.libdir ++ pstr "/" ++ pyBasename l)
  let tgtUninstall := sJoin (pstr "\n\t") (binu ++ libu)
  let tgtc := commands.map
      (fun c => if sStartsWith c (pstr "\t") then c else pstr "\n" ++ c)
  let targetsText := sLstrip (pstr "\n") (sJoin (pstr "\n") tgtc)
  let c1 := sReplace (pstr "$(APPNAME)") env.appname MAKEFILE_TEMPLATE
  let c2 := sReplace (pstr "$(VERSION)") env.version c1
  let c3 := sReplace (pstr "$(WAFVERSION)") env.wafversion c2
  let c4 := sReplace (pstr "$(DATETIME)") dt c3
  let c5 := sReplace (pstr "$(PREFIX)") (homeAbbrev env.prefixPath) c4
  let c6 := sReplace (pstr "$(BINDIR)") env.bindir c5
  let c7 := sReplace (pstr "$(LIBDIR)") env.libdir c6
  let c8 := sReplace (pstr "$(TGT_ALL)") tgtAll c7
  let c9 := sReplace (pstr "$(TGT_CLEAN)") tgtClean c8
  let c10 := sReplace (pstr "$(TGT_INSTALL)") tgtInstall c9
  let c11 := sReplace (pstr "$(TGT_UNINSTALL)") tgtUninstall c10
  let c12 := sReplace (pstr "$(TARGETS)") targetsText c11
  sReplace env.prefixPath (pstr "$PREFIX") c12

/-- Concrete build context shared by the emitter witnesses. -/
def bldEnv0 : BldEnv :=
  { rootAbs := pstr "/prj", top := pstr "build",
    appname := pstr "hello", version := pstr "1.0", wafversion := pstr "1.7",
    prefixPath := pstr "/usr/local",
    bindir := pstr "/usr/local/bin", libdir := pstr "/usr/local/lib" }

/-- Concrete emitted commands shared by the emitter witnesses. -/
def wCmds0 : List PyStr :=
  [pstr "build/hello.o:", pstr "\tmkdir -p build", pstr "\tgcc -c hello.c"]

/-- C3 counterexample: the emitted Makefile embeds `datetime.datetime.now()`
in the header, so two runs over the same targets and commands that observe
different clock readings produce different bytes; the output is not a
function of the task records alone. -/
theorem export_makefile_timestamp_dependent :
    export_makefile bldEnv0 [pstr "build/hello.o"] wCmds0 (pstr "2014-07-01 10:00:00")
      ≠ export_makefile bldEnv0 [pstr "build/hello.o"] wCmds0 (pstr "2014-07-01 10:00:01") := by
  decide

/-- C3 amended: for a fixed set of completed tasks in a fixed order the
emitted Makefile is a deterministic function of the task records and the
generation timestamp alone, and two runs differ exactly by splicing their
respective timestamps into the `# time` header line: the surrounding bytes
`pre`/`post` depend only on the task records. -/
theorem export_makefile_deterministic_modulo_time (env : BldEnv)
    (targets commands : List PyStr) (d1 d2 : PyStr) (h : targets ≠ []) :
    ∃ pre post : PyStr,
      export_makefile env targets commands d1 = some (pre ++ d1 ++ post)
      ∧ export_makefile env targets commands d2 = some (pre ++ d2 ++ post) := by
  refine ⟨pstr "# This makefile has been generated by waf.\n#\n# project : " ++ env.appname
    ++ pstr "\n# version : " ++ env.version ++ pstr "\n# waf     : " ++ env.wafversion
    ++ pstr "\n# time    : ",
    pstr "\n#\nSHELL=/bin/sh\nPREFIX=" ++ env.prefixPath ++ pstr "\n\n"
      ++ exportMakefileContent env targets commands, ?_, ?_⟩
  · simp [export_makefile, h, exportMakefileHeader, List.append_assoc]
  · simp [export_makefile, h, exportMakefileHeader, List.append_assoc]

theorem export_makefile_deterministic_modulo_time_witness :
    ([pstr "build/hello.o"] : List PyStr) ≠ []
    ∧ ∃ pre post : PyStr,
      export_makefile bldEnv0 [pstr "build/hello.o"] wCmds0 (pstr "A")
        = some (pre ++ pstr "A" ++ post)
      ∧ export_makefile bldEnv0 [pstr "build/hello.o"] wCmds0 (pstr "B")
        = some (pre ++ pstr "B" ++ post) :=
  ⟨by decide,
   export_makefile_deterministic_modulo_time bldEnv0 [pstr "build/hello.o"] wCmds0
     (pstr "A") (pstr "B") (by decide)⟩

set_option maxRecDepth 40000 in
/-- C8 (evaluation at the failing input): the standalone tool substitutes the
install prefix with `$PREFIX` - not the make-variable reference `$(PREFIX)` -
and, for a prefix not under `/home/`, the substitution also hits the header's
`PREFIX=` assignment, so the literal prefix is not shown there.  (The
combined export tool, `export_makefile`, behaves as the claim states.) -/
theorem makefile_export_prefix_placeholder_bug :
    sContains (makefile_export bldEnv0 [pstr "build/hello"] [] (pstr "2014-07-01"))
      (pstr "PREFIX=$PREFIX") = true
    ∧ sContains (makefile_export bldEnv0 [pstr "build/hello"] [] (pstr "2014-07-01"))
      (pstr "$(PREFIX)") = false
    ∧ sContains (makefile_export bldEnv0 [pstr "build/hello"] [] (pstr "2014-07-01"))
      (pstr "$PREFIX/bin") = true
    ∧ sContains ((export_makefile bldEnv0 [pstr "build/hello"] [] (pstr "2014-07-01")).getD [])
      (pstr "PREFIX=/usr/local\n") = true
    ∧ sContains ((export_makefile bldEnv0 [pstr "build/hello"] [] (pstr "2014-07-01")).getD [])
      (pstr "$(PREFIX)/bin") = true := by
  decide

-- ---------------------------------------------------------------------------
-- Task processing pipelines.  `mk*` models the standalone tool
-- (src/waftools/makefile.py: `MakefileContext.execute`, `makefile_process`,
-- `makefile_compile`, `makefile_link`, `makefile_show_failure`); `w*` models
-- the combined export command (src/waftools/exporter.py driving
-- src/waftools/wafexport/makefile.py `process`/`postfun`).
-- ---------------------------------------------------------------------------

/-- One element of a captured Python command list: a string, or some other
object (whose `startswith` access raises `AttributeError`). -/
inductive PyArg : Type
  | str (s : PyStr)
  | nonstr (r : PyStr)
deriving DecidableEq

/-- The `command_executed` attribute of a task: absent (attribute access
raises), a plain string (the `isinstance(..., list)` test fails and the value
passes through unchanged), or a list of arguments. -/
inductive RawCmd : Type
  | missing
  | notList (s : PyStr)
  | args (l : List PyArg)
deriving DecidableEq

def isStrArg : PyArg → Bool
  | .str _ => true
  | .nonstr _ => false

/-- The value of an argument as used once all elements are known strings (for
`nonstr` this is only its repr, used in messages). -/
def argStrOf : PyArg → PyStr
  | .str s => s
  | .nonstr r => r

/-- Rewriting every argument of a captured command list; the first non-string
element raises (`AttributeError` on `.startswith`). -/
def rewriteArgs (rw : PyStr → PyStr) : List PyArg → Except PyStr (List PyStr)
  | [] => .ok []
  | .str s :: rest =>
    match rewriteArgs rw rest with
    | .error e => .error e
    | .ok l => .ok (rw s :: l)
  | .nonstr _ :: _ => .error (pstr "AttributeError: startswith")

/-- The guarded conversion of `task.command_executed` into a single makefile
command string (the `try` block of `makefile_compile`/`makefile_link`). -/
def rewriteCmd (rwArg : PyStr → PyStr) : RawCmd → Except PyStr PyStr
  | .missing => .error (pstr "AttributeError: command_executed")
  | .notList s => .ok s
  | .args l =>
    match rewriteArgs rwArg l with
    | .error e => .error e
    | .ok cs => .ok (sJoin (pstr " \\\n\t") cs)

/-- A completed build task as the export hooks see it: class name, captured
command, output node paths (relative to the build node) and, for link tasks,
dependency node paths. -/
structure MkTask where
  name : PyStr
  kind : PyStr
  cmdExec : RawCmd
  outputs : List PyStr
  deps : List PyStr
deriving DecidableEq

/-- `getattr(task, "command_executed", [])` as recorded in `bld.failure`
(a Python string is itself a sequence of 1-character strings). -/
def recordRaw : RawCmd → List PyArg
  | .missing => []
  | .notList s => s.map (fun ch => PyArg.str [ch])
  | .args l => l

/-- The `bld.failure` record `(exception, task, raw command)`. -/
structure MkFailure where
  tskName : PyStr
  errRepr : PyStr
  rawCmd : List PyArg
deriving DecidableEq

/-- The `MakefileContext` accumulator state. -/
structure MkState where
  failure : Option MkFailure
  commands : List PyStr
  targets : List PyStr
deriving DecidableEq

def mkInit : MkState := { failure := none, commands := [], targets := [] }

/-- Class names dispatched to the compile transformer. -/
def compileKinds : List PyStr := [pstr "c", pstr "cxx"]

/-- Class names dispatched to the link transformer. -/
def linkKinds : List PyStr :=
  [pstr "cprogram", pstr "cshlib", pstr "cstlib",
   pstr "cxxprogram", pstr "cxxshlib", pstr "cxxstlib"]

/-- `makefile_compile`: extend the target list, then either record the
rewrite failure on `bld.failure` or append the three command lines. -/
def mkProcessCompile (env : BldEnv) (st : MkState) (t : MkTask) : MkState :=
  let lst := t.outputs.map (fun o => env.top ++ pstr "/" ++ o)
  let st1 := { st with targets := st.targets ++ lst }
  match rewriteCmd (rewriteCompileArg env.rootAbs env.top) t.cmdExec with
  | .error e =>
    { st1 with failure := some (MkFailure.mk t.name e (recordRaw t.cmdExec)) }
  | .ok c =>
    let target := lst.headD []
    { st1 with commands := st1.commands
        ++ [target ++ pstr ":", pstr "\tmkdir -p " ++ pyDirname target, pstr "\t" ++ c] }

/-- `makefile_link`: extend the target list, gather the dependency lines
(excluding `.dll.a` import libraries), then record a failure or append the
command lines. -/
def mkProcessLink (env : BldEnv) (st : MkState) (t : MkTask) : MkState :=
  let lst := t.outputs.map (fun o => env.top ++ pstr "/" ++ o)
  let st1 := { st with targets := st.targets ++ lst }
  let all := (lst ++ t.deps.map (fun d => env.top ++ pstr "/" ++ d)).filter
      (fun l => !sEndsWith l (pstr ".dll.a"))
  match rewriteCmd (rewriteLinkArg env.rootAbs env.top) t.cmdExec with
  | .error e =>
    { st1 with failure := some (MkFailure.mk t.name e (recordRaw t.cmdExec)) }
  | .ok c =>
    { st1 with commands := st1.commands
        ++ [pyBasename (all.headD []) ++ pstr ": \\",
            pstr "\t" ++ sJoin (pstr " \\\n\t") all.tail,
            pstr "\t" ++ c] }

/-- `makefile_process`: dispatch on the task class name; other kinds are
ignored. -/
def mkProcessTask (env : BldEnv) (st : MkState) (t : MkTask) : MkState :=
  if t.kind ∈ compileKinds then mkProcessCompile env st t
  else if t.kind ∈ linkKinds then mkProcessLink env st t
  else st

/-- Processing every completed task in order. -/
def mkProcessAll (env : BldEnv) (ts : List MkTask) : MkState :=
  ts.foldl (mkProcessTask env) mkInit

/-- `makefile_show_failure`: formats the fatal message; joining the raw
command with `'\n     '.join(cmd)` itself raises `TypeError` when the
recorded command holds a non-string element. -/
def showFailure (f : MkFailure) : Except PyStr PyStr :=
  if f.rawCmd.all isStrArg then
    .ok (pstr "export failure:\n tsk='" ++ f.tskName ++ pstr "'\n err='" ++ f.errRepr
      ++ pstr "'\n cmd='" ++ sJoin (pstr "\n     ") (f.rawCmd.map argStrOf) ++ pstr "'\n")
  else .error (pstr "TypeError: sequence item: expected string")

/-- The `postfun` of `MakefileContext.execute` (makefile.py lines 135-142):
a recorded failure aborts with a fatal message and nothing is exported; with
no targets only a warning is shown (`.ok none`); otherwise the Makefile text
is produced. -/
def mkPostfun (env : BldEnv) (st : MkState) (dt : PyStr) : Except PyStr (Option PyStr) :=
  match st.failure with
  | some f =>
    match showFailure f with
    | .ok m => .error m
    | .error e => .error e
  | none =>
    if st.targets = [] then .ok none
    else .ok (some (makefile_export env st.targets st.commands dt))

/-- The whole standalone `waf makefile` run over the completed tasks. -/
def mkPipeline (env : BldEnv) (ts : List MkTask) (dt : PyStr) :
    Except PyStr (Option PyStr) :=
  mkPostfun env (mkProcessAll env ts) dt

/-- The targets a task contributes (exportable kinds only). -/
def taskTargets (env : BldEnv) (t : MkTask) : List PyStr :=
  if t.kind ∈ compileKinds ∨ t.kind ∈ linkKinds then
    t.outputs.map (fun o => env.top ++ pstr "/" ++ o)
  else []

def isErrB {ε α : Type} : Except ε α → Bool
  | .error _ => true
  | .ok _ => false

/-- Whether processing this task raises inside the rewrite `try` block. -/
def rewriteFails (env : BldEnv) (t : MkTask) : Bool :=
  if t.kind ∈ compileKinds then
    isErrB (rewriteCmd (rewriteCompileArg env.rootAbs env.top) t.cmdExec)
  else if t.kind ∈ linkKinds then
    isErrB (rewriteCmd (rewriteLinkArg env.rootAbs env.top) t.cmdExec)
  else false

theorem mkProcessTask_targets (env : BldEnv) (st : MkState) (t : MkTask) :
    (mkProcessTask env st t).targets = st.targets ++ taskTargets env t := by
  by_cases h1 : t.kind ∈ compileKinds
  · cases hr : rewriteCmd (rewriteCompileArg env.rootAbs env.top) t.cmdExec with
    | error e => simp [mkProcessTask, taskTargets, mkProcessCompile, h1, hr]
    | ok c => simp [mkProcessTask, taskTargets, mkProcessCompile, h1, hr]
  · by_cases h2 : t.kind ∈ linkKinds
    · cases hr : rewriteCmd (rewriteLinkArg env.rootAbs env.top) t.cmdExec with
      | error e => simp [mkProcessTask, taskTargets, mkProcessLink, h1, h2, hr]
      | ok c => simp [mkProcessTask, taskTargets, mkProcessLink, h1, h2, hr]
    · simp [mkProcessTask, taskTargets, h1, h2]

theorem mkProcessAll_targets (env : BldEnv) (ts : List MkTask) (st : MkState) :
    (ts.foldl (mkProcessTask env) st).targets = st.targets ++ ts.flatMap (taskTargets env) := by
  induction ts generalizing st with
  | nil => simp
  | cons a l ih =>
    rw [List.foldl_cons, List.flatMap_cons, ih, mkProcessTask_targets, List.append_assoc]

theorem mkProcessTask_failure_of_ok (env : BldEnv) (st : MkState) (t : MkTask)
    (h : rewriteFails env t = false) :
    (mkProcessTask env st t).failure = st.failure := by
  by_cases h1 : t.kind ∈ compileKinds
  · cases hr : rewriteCmd (rewriteCompileArg env.rootAbs env.top) t.cmdExec with
    | error e =>
      rw [rewriteFails, if_pos h1, hr] at h
      simp [isErrB] at h
    | ok c => simp [mkProcessTask, mkProcessCompile, h1, hr]
  · by_cases h2 : t.kind ∈ linkKinds
    · cases hr : rewriteCmd (rewriteLinkArg env.rootAbs env.top) t.cmdExec with
      | error e =>
        rw [rewriteFails, if_neg h1, if_pos h2, hr] at h
        simp [isErrB] at h
      | ok c => simp [mkProcessTask, mkProcessLink, h1, h2, hr]
    · simp [mkProcessTask, h1, h2]

theorem mkProcessAll_failure_of_ok (env : BldEnv) (ts : List MkTask) (st : MkState)
    (h : ∀ u ∈ ts, rewriteFails env u = false) :
    (ts.foldl (mkProcessTask env) st).failure = st.failure := by
  induction ts generalizing st with
  | nil => rfl
  | cons a l ih =>
    rw [List.foldl_cons, ih _ (fun u hu => h u (List.mem_cons_of_mem a hu)),
        mkProcessTask_failure_of_ok env st a (h a (List.mem_cons_self a l))]

theorem mkProcessTask_failure_of_fail (env : BldEnv) (st : MkState) (t : MkTask)
    (h : rewriteFails env t = true) :
    ∃ e, (mkProcessTask env st t).failure
      = some (MkFailure.mk t.name e (recordRaw t.cmdExec)) := by
  by_cases h1 : t.kind ∈ compileKinds
  · cases hr : rewriteCmd (rewriteCompileArg env.rootAbs env.top) t.cmdExec with
    | error e => exact ⟨e, by simp [mkProcessTask, mkProcessCompile, h1, hr]⟩
    | ok c =>
      rw [rewriteFails, if_pos h1, hr] at h
      simp [isErrB] at h
  · by_cases h2 : t.kind ∈ linkKinds
    · cases hr : rewriteCmd (rewriteLinkArg env.rootAbs env.top) t.cmdExec with
      | error e => exact ⟨e, by simp [mkProcessTask, mkProcessLink, h1, h2, hr]⟩
      | ok c =>
        rw [rewriteFails, if_neg h1, if_pos h2, hr] at h
        simp [isErrB] at h
    · rw [rewriteFails, if_neg h1, if_neg h2] at h
      exact Bool.noConfusion h

/-- C9 amended (the standalone `waf makefile` command behaves as the claim
states): when rewriting the captured command of task `t` raises, the build is
not aborted at that point - every later task still contributes its targets -
the failure is recorded and surfaced once at end-of-export as a fatal error,
no Makefile is produced, and the message names the offending task and its raw
command whenever the recorded command joins as text (a recorded non-string
element makes the reporting itself raise `TypeError` instead).  In the
combined `waf export` command the recorded exception is never surfaced and
the Makefile is still written (see the counterexample). -/
theorem makefile_failure_deferred_fatal (env : BldEnv) (ts1 ts2 : List MkTask)
    (t : MkTask) (dt : PyStr)
    (hf : rewriteFails env t = true)
    (h2 : ∀ u ∈ ts2, rewriteFails env u = false) :
    (∃ m, mkPipeline env (ts1 ++ t :: ts2) dt = .error m
        ∧ ((recordRaw t.cmdExec).all isStrArg = true → sContains m t.name = true))
    ∧ (mkProcessAll env (ts1 ++ t :: ts2)).targets
        = (ts1 ++ t :: ts2).flatMap (taskTargets env) := by
  obtain ⟨e, he⟩ := mkProcessTask_failure_of_fail env (ts1.foldl (mkProcessTask env) mkInit) t hf
  have hfail : (mkProcessAll env (ts1 ++ t :: ts2)).failure
      = some (MkFailure.mk t.name e (recordRaw t.cmdExec)) := by
    rw [mkProcessAll, List.foldl_append, List.foldl_cons,
        mkProcessAll_failure_of_ok env ts2 _ h2, he]
  constructor
  · by_cases hstr : (recordRaw t.cmdExec).all isStrArg = true
    · refine ⟨pstr "export failure:\n tsk='" ++ t.name ++ pstr "'\n err='" ++ e
        ++ pstr "'\n cmd='" ++ sJoin (pstr "\n     ") ((recordRaw t.cmdExec).map argStrOf)
        ++ pstr "'\n", ?_, ?_⟩
      · simp only [mkPipeline, mkPostfun, hfail, showFailure, hstr, if_true]
      · intro _
        have e1 : pstr "export failure:\n tsk='" ++ t.name ++ pstr "'\n err='" ++ e
            ++ pstr "'\n cmd='" ++ sJoin (pstr "\n     ") ((recordRaw t.cmdExec).map argStrOf)
            ++ pstr "'\n"
            = pstr "export failure:\n tsk='" ++ t.name ++ (pstr "'\n err='" ++ (e
              ++ (pstr "'\n cmd='" ++ (sJoin (pstr "\n     ")
                ((recordRaw t.cmdExec).map argStrOf) ++ pstr "'\n")))) := by
          simp [List.append_assoc]
        rw [e1]
        exact sContains_self_append t.name (pstr "export failure:\n tsk='") _
    · refine ⟨pstr "TypeError: sequence item: expected string", ?_, ?_⟩
      · simp only [mkPipeline, mkPostfun, hfail, showFailure]
        rw [if_neg hstr]
      · intro hc
        exact absurd hc hstr
  · rw [mkProcessAll, mkProcessAll_targets env (ts1 ++ t :: ts2) mkInit]
    simp [mkInit]

/-- A task whose captured command is missing: rewriting raises
`AttributeError` inside the `try` block. -/
def mkBad0 : MkTask :=
  { name := pstr "badtask", kind := pstr "c", cmdExec := RawCmd.missing,
    outputs := [pstr "bad.o"], deps := [] }

/-- A well-formed compile task processed after the failing one. -/
def mkGood0 : MkTask :=
  { name := pstr "goodtask", kind := pstr "c",
    cmdExec := RawCmd.args
      [PyArg.str (pstr "gcc"), PyArg.str (pstr "-c"), PyArg.str (pstr "hello.c"),
       PyArg.str (pstr "-o"), PyArg.str (pstr "hello.o")],
    outputs := [pstr "hello.o"], deps := [] }

theorem makefile_failure_deferred_fatal_witness :
    rewriteFails bldEnv0 mkBad0 = true
    ∧ (∀ u ∈ [mkGood0], rewriteFails bldEnv0 u = false)
    ∧ ((∃ m, mkPipeline bldEnv0 ([] ++ mkBad0 :: [mkGood0]) (pstr "D") = .error m
          ∧ ((recordRaw mkBad0.cmdExec).all isStrArg = true
             → sContains m mkBad0.name = true))
       ∧ (mkProcessAll bldEnv0 ([] ++ mkBad0 :: [mkGood0])).targets
          = ([] ++ mkBad0 :: [mkGood0]).flatMap (taskTargets bldEnv0)) :=
  ⟨by decide, by decide,
   makefile_failure_deferred_fatal bldEnv0 [] [mkGood0] mkBad0 (pstr "D")
     (by decide) (by decide)⟩

-- The combined export command (exporter.py + wafexport/makefile.py). --------

/-- The export-command accumulator: `bld.export_exception` plus the command
and target lists. -/
structure WState where
  exportException : Option (PyStr × PyStr × PyStr)
  commands : List PyStr
  targets : List PyStr
deriving DecidableEq

def wInit : WState := { exportException := none, commands := [], targets := [] }

/-- `_compile_task` (wafexport): identical rewriting, but a failure is stored
as `bld.export_exception = (__file__, e, task)`. -/
def wProcessCompile (env : BldEnv) (st : WState) (t : MkTask) : WState :=
  let lst := t.outputs.map (fun o => env.top ++ pstr "/" ++ o)
  let st1 := { st with targets := st.targets ++ lst }
  match rewriteCmd (rewriteCompileArg env.rootAbs env.top) t.cmdExec with
  | .error e =>
    { st1 with exportException := some (pstr "wafexport/makefile.py", e, t.name) }
  | .ok c =>
    let target := lst.headD []
    { st1 with commands := st1.commands
        ++ [target ++ pstr ":", pstr "\tmkdir -p " ++ pyDirname target, pstr "\t" ++ c] }

/-- `_link_task` (wafexport). -/
def wProcessLink (env : BldEnv) (st : WState) (t : MkTask) : WState :=
  let lst := t.outputs.map (fun o => env.top ++ pstr "/" ++ o)
  let st1 := { st with targets := st.targets ++ lst }
  let all := (lst ++ t.deps.map (fun d => env.top ++ pstr "/" ++ d)).filter
      (fun l => !sEndsWith l (pstr ".dll.a"))
  match rewriteCmd (rewriteLinkArg env.rootAbs env.top) t.cmdExec with
  | .error e =>
    { st1 with exportException := some (pstr "wafexport/makefile.py", e, t.name) }
  | .ok c =>
    { st1 with commands := st1.commands
        ++ [pyBasename (all.headD []) ++ pstr ": \\",
            pstr "\t" ++ sJoin (pstr " \\\n\t") all.tail,
            pstr "\t" ++ c] }

/-- `process` (wafexport). -/
def wProcessTask (env : BldEnv) (st : WState) (t : MkTask) : WState :=
  if t.kind ∈ compileKinds then wProcessCompile env st t
  else if t.kind ∈ linkKinds then wProcessLink env st t
  else st

def wProcessAll (env : BldEnv) (ts : List MkTask) : WState :=
  ts.foldl (wProcessTask env) wInit

/-- `postfun` of the export command: `_export_makefile` runs unconditionally;
no code in the repository ever reads `bld.export_exception`. -/
def wPostfun (env : BldEnv) (st : WState) (dt : PyStr) : Option PyStr :=
  export_makefile env st.targets st.commands dt

/-- C9 counterexample: in the combined `waf export` command a rewrite failure
is recorded in `bld.export_exception` but never surfaced - nothing reads it -
and the final Makefile is still written, contradicting the claim that the
error is surfaced as a terminal failure and emission is aborted. -/
theorem wafexport_error_not_surfaced :
    (wProcessAll bldEnv0 [mkBad0, mkGood0]).exportException
      = some (pstr "wafexport/makefile.py", pstr "AttributeError: command_executed",
              pstr "badtask")
    ∧ (wPostfun bldEnv0 (wProcessAll bldEnv0 [mkBad0, mkGood0]) (pstr "2014-07-01")).isSome
      = true := by
  decide
